import Mathlib

/-!
Verification of `nvkm` (src/nvkm/models.py) against its specification.

The numeric code is embedded shallowly over `ℝ`:
* matrices are `Matrix (Fin n) (Fin n) ℝ`, vectors `Fin n → ℝ`;
* `jax.scipy.linalg.cho_solve((L, True), b)` solves `(L * Lᵀ) x = b`, which for
  an invertible factor is `(L * Lᵀ)⁻¹ *ᵥ b`; it is embedded by that semantics;
* pseudo-random draws (`jax.random.normal` / `uniform` / `multivariate_normal`)
  and key splitting are deterministic functions of the key, embedded as an
  abstract `Rand` record of draw functions;
* the Volterra integral engine (`nvkm.integrals.Full.I`), the likelihood
  (`nvkm.vi.gaussian_likelihood`), the kernel utilities (`nvkm.utils`) and the
  jitter constant (`nvkm.settings.JITTER`) are imported by models.py from
  modules that are not part of the repository snapshot under src/; they are
  modelled abstractly (structure fields / parameters) or, where the spec gives
  their meaning, from the spec's words;
* Python-level failure behaviour (attribute lookups on undefined names,
  calls with mismatched arities, keyword arguments a signature does not
  accept, dimension checks raising errors) is embedded as explicit
  `Except`-valued evaluation of the attribute accesses / checks the method
  bodies perform, in source order.
-/

namespace NVKM

open Matrix
open scoped BigOperators

/-! ### The variational KL term (`VarEQApproxGP._KL`) -/

/-- Semantics of `jsp.linalg.cho_solve((L, True), b)` applied to a vector:
the solution of `(L Lᵀ) x = b`, i.e. `(L Lᵀ)⁻¹ *ᵥ b`. -/
noncomputable def choSolveVec {n : ℕ} (L : Matrix (Fin n) (Fin n) ℝ) (b : Fin n → ℝ) :
    Fin n → ℝ :=
  (L * Lᵀ)⁻¹.mulVec b

/-- Semantics of `jsp.linalg.cho_solve((L, True), B)` applied to a matrix:
the solution of `(L Lᵀ) X = B`, i.e. `(L Lᵀ)⁻¹ * B`. -/
noncomputable def choSolveMat {n : ℕ} (L B : Matrix (Fin n) (Fin n) ℝ) :
    Matrix (Fin n) (Fin n) ℝ :=
  (L * Lᵀ)⁻¹ * B

/-- `VarEQApproxGP._KL(LC, mu, LK)` (src/nvkm/models.py, lines 227-237):

    C = LC @ LC.T
    mt = -0.5 * (dot(mu.T, cho_solve((LK, True), mu))
                 + trace(cho_solve((LK, True), C)))
    st = 0.5 * (sum(log(diag(LC))) - sum(log(diag(LK))))
    return mt + st + 0.5 * LC.shape[0]

`KL()` returns `_KL(self.LC, self.mu, self.LKvv)`. -/
noncomputable def varKL {n : ℕ} (LC : Matrix (Fin n) (Fin n) ℝ) (mu : Fin n → ℝ)
    (LK : Matrix (Fin n) (Fin n) ℝ) : ℝ :=
  let C := LC * LCᵀ
  let mt := -0.5 * (mu ⬝ᵥ choSolveVec LK mu + (choSolveMat LK C).trace)
  let st := 0.5 * ((∑ i, Real.log (LC i i)) - (∑ i, Real.log (LK i i)))
  mt + st + 0.5 * (n : ℝ)

/-- The closed-form KL divergence `KL(N(mu, LC LCᵀ) ‖ N(0, Kvv))` exactly as the
spec states it: `0.5·[muᵀ Kvv⁻¹ mu + tr(Kvv⁻¹ LC LCᵀ) + log|Kvv| − log|LC LCᵀ| − M]`,
with `Kvv = LK LKᵀ`. Spec-side definition, compared against `varKL` (the code). -/
noncomputable def specKL {n : ℕ} (LC : Matrix (Fin n) (Fin n) ℝ) (mu : Fin n → ℝ)
    (LK : Matrix (Fin n) (Fin n) ℝ) : ℝ :=
  let K := LK * LKᵀ
  let C := LC * LCᵀ
  0.5 * (mu ⬝ᵥ K⁻¹.mulVec mu + (K⁻¹ * C).trace
    + Real.log K.det - Real.log C.det - (n : ℝ))

/-- The quantity `−_KL` actually contributes per GP: the spec's KL closed form
but with both log-determinant terms halved. -/
noncomputable def specKLHalf {n : ℕ} (LC : Matrix (Fin n) (Fin n) ℝ) (mu : Fin n → ℝ)
    (LK : Matrix (Fin n) (Fin n) ℝ) : ℝ :=
  0.5 * (mu ⬝ᵥ (LK * LKᵀ)⁻¹.mulVec mu + ((LK * LKᵀ)⁻¹ * (LC * LCᵀ)).trace
    + 0.5 * Real.log (LK * LKᵀ).det - 0.5 * Real.log (LC * LCᵀ).det - (n : ℝ))

/-- A matrix is lower-triangular: all entries strictly above the diagonal vanish. -/
def LowTri {n : ℕ} (L : Matrix (Fin n) (Fin n) ℝ) : Prop :=
  ∀ i j : Fin n, i < j → L i j = 0

/-- Concrete 1×1 variational factor `[[e]]`, used to exhibit the halved
log-determinant terms of `varKL`. -/
noncomputable def cexLC : Matrix (Fin 1) (Fin 1) ℝ := fun _ _ => Real.exp 1

/-- Concrete 1×1 variational mean `[1]`. -/
noncomputable def cexMu : Fin 1 → ℝ := fun _ => 1

/-! ### Dimension checking of query / inducing inputs (`EQApproxGP`)

`EQApproxGP.sample` (lines 176-192) and `EQApproxGP.__init__` (lines 68-84)
both run

    try: assert t.shape[1] == self.D
    except IndexError: t = t.reshape(-1, 1); assert self.D == 1
    except AssertionError: raise ValueError(...)

A 2-D array whose second axis is not `D` raises `ValueError`; a 1-D array takes
the `IndexError` path, is reshaped to a column, and the `assert self.D == 1`
inside that handler raises an (uncaught) `AssertionError` when `D ≠ 1`. -/

/-- A numpy array argument: 1-D of length `n`, or 2-D of shape `n × m`. -/
inductive PyArr where
  | one : (n : ℕ) → (Fin n → ℝ) → PyArr
  | two : (n m : ℕ) → (Fin n → Fin m → ℝ) → PyArr

/-- The Python exception kinds the dimension check can raise. -/
inductive DimErr where
  | valueError : DimErr
  | assertionError : DimErr
deriving DecidableEq

/-- The trailing dimension of an array: `m` for shape `(n, m)`, `n` for shape `(n,)`. -/
def trailingDim : PyArr → ℕ
  | .one n _ => n
  | .two _ m _ => m

/-- Whether the array is 1-D. -/
def PyArr.isOneD : PyArr → Bool
  | .one _ _ => true
  | .two _ _ _ => false

/-- `reshape(-1, 1)` of a 1-D array (a 2-D array is left unchanged). -/
def PyArr.colVec : PyArr → PyArr
  | .one n f => .two n 1 (fun i _ => f i)
  | .two n m f => .two n m f

/-- The dimension check at the top of `EQApproxGP.sample` (lines 179-185). -/
def sampleDimCheck (t : PyArr) (D : ℕ) : Except DimErr PyArr :=
  match t with
  | .two n m f => if m = D then .ok (.two n m f) else .error .valueError
  | .one n f => if D = 1 then .ok (.two n 1 (fun i _ => f i)) else .error .assertionError

/-- The identical check run on the inducing inputs `z` in `EQApproxGP.__init__`
(lines 71-82). -/
def initDimCheck (z : PyArr) (D : ℕ) : Except DimErr PyArr :=
  match z with
  | .two n m f => if m = D then .ok (.two n m f) else .error .valueError
  | .one n f => if D = 1 then .ok (.two n 1 (fun i _ => f i)) else .error .assertionError

/-- `true` exactly when the check raised. -/
def errB : Except DimErr PyArr → Bool
  | .error _ => true
  | .ok _ => false

/-! ### Attribute resolution on `IOMOVarNVKM` (lines 878-1019)

`IOMOVarNVKM.__init__` runs `MOVarNVKM.__init__` (which assigns the instance
attributes of lines 320-346) and then assigns `u_noise` and `data`. The names
`q_of_v`, `_compute_p_pars`, `set_G_gps` and `set_u_gp` referenced by
`_joint_sample`, `_compute_bound` and `fit` are assigned nowhere (the assignments
and defs for them in `MOVarNVKM` are commented out), so looking them up raises
`AttributeError`. Method execution is embedded as the sequence of attribute
lookups (and the one inherited call, with its arity) each body performs, in
source order, in the `Except` monad. -/

/-- Python error kinds for the method-resolution model. -/
inductive PyErr where
  | attributeError : String → PyErr
  | typeError : PyErr
deriving DecidableEq

/-- The attributes defined on an `IOMOVarNVKM` instance: instance attributes
assigned in `MOVarNVKM.__init__` (lines 320-346) and `IOMOVarNVKM.__init__`
(lines 899-903), plus the methods of both classes. -/
def ioAttrs : List String :=
  ["zgs", "vgs", "zu", "vu", "N_basis", "C", "O", "noise", "alpha",
   "lsgs", "lsu", "ampgs", "ampu", "u_gp", "g_gps", "data", "likelihood", "q_pars",
   "u_noise",
   "construct_gps", "construct_q_pars", "_KL", "_sample", "sample", "predict",
   "_compute_bound", "compute_bound", "fit", "save", "plot_samples", "plot_filters",
   "_joint_sample", "joint_sample"]

/-- `getattr`: `ok` when the name is defined, else `AttributeError`. -/
def pyAttr (a : String) : Except PyErr Unit :=
  if a ∈ ioAttrs then .ok () else .error (.attributeError a)

/-- Calling a function: `TypeError` when the number of positional arguments
does not match the number of (default-less) parameters. -/
def pyCallArity (provided required : ℕ) : Except PyErr Unit :=
  if provided = required then .ok () else .error .typeError

/-- `IOMOVarNVKM.joint_sample(tu, tys, N_s, key)` (lines 913-916): evaluates
`self._joint_sample`, the `self.*` arguments, then the body of `_joint_sample`
(lines 905-911), whose first statement reads `self.q_of_v`. -/
def ioJointSampleRun : Except PyErr Unit := do
  let _ ← pyAttr "_joint_sample"
  let _ ← pyAttr "q_pars"
  let _ ← pyAttr "ampgs"
  let _ ← pyAttr "lsgs"
  let _ ← pyAttr "ampu"
  let _ ← pyAttr "lsu"
  let _ ← pyAttr "q_of_v"
  let _ ← pyAttr "u_gp"
  let _ ← pyAttr "_sample"
  pure ()

/-- `IOMOVarNVKM.compute_bound(N_s, key)` — the method inherited from
`MOVarNVKM` (lines 547-558): it evaluates `self._compute_bound` and the
`self.*` arguments, then calls the override with 9 positional arguments, while
`IOMOVarNVKM._compute_bound` (lines 918-921) requires 10 (`data, q_pars, ampgs,
lsgs, ampu, lsu, noise, u_noise, N_s, key`). -/
def ioComputeBoundRun : Except PyErr Unit := do
  let _ ← pyAttr "_compute_bound"
  let _ ← pyAttr "data"
  let _ ← pyAttr "q_pars"
  let _ ← pyAttr "ampgs"
  let _ ← pyAttr "lsgs"
  let _ ← pyAttr "ampu"
  let _ ← pyAttr "lsu"
  let _ ← pyAttr "noise"
  let _ ← pyCallArity 9 10
  let _ ← pyAttr "_compute_p_pars"
  pure ()

/-- `IOMOVarNVKM.fit(its, lr, batch_size, N_s, ...)` (lines 947-1019): reads
`self.data`, `getattr(self, k)` for each entry of `std_fit`, and
`self._compute_bound`; with `its ≥ 1` the first `grad_fn` call traces
`_compute_bound` (10 arguments, matching) whose body reads
`self._compute_p_pars`; with `its = 0` the loop is skipped and the epilogue
(lines 1017-1019) reads `self._compute_p_pars`, `self.set_G_gps`,
`self.set_u_gp`. -/
def ioFitRun (its : ℕ) : Except PyErr Unit := do
  let _ ← pyAttr "data"
  let _ ← pyAttr "q_pars"
  let _ ← pyAttr "ampgs"
  let _ ← pyAttr "lsgs"
  let _ ← pyAttr "ampu"
  let _ ← pyAttr "lsu"
  let _ ← pyAttr "noise"
  let _ ← pyAttr "u_noise"
  let _ ← pyAttr "_compute_bound"
  if its = 0 then do
    let _ ← pyAttr "_compute_p_pars"
    let _ ← pyAttr "set_G_gps"
    let _ ← pyAttr "set_u_gp"
    pure ()
  else do
    let _ ← pyCallArity 10 10
    let _ ← pyAttr "_compute_p_pars"
    pure ()

/-- `true` exactly on an `AttributeError` outcome. -/
def isAttrErrB : Except PyErr Unit → Bool
  | .error (.attributeError _) => true
  | _ => false

/-! ### The model loaders (`load_mo_model` / `load_io_model`, lines 1054-1110) -/

/-- The parameters `MOVarNVKM.__init__` accepts (lines 280-295): positional
`zgs, zu, data` and the keyword parameters. -/
def moInitParams : List String :=
  ["zgs", "zu", "data", "q_frac", "key", "likelihood", "N_basis",
   "ampgs", "noise", "alpha", "lsgs", "lsu", "ampu"]

/-- The arguments `MOVarNVKM.__init__`'s docstring documents (lines 299-317). -/
def moInitDocArgs : List String :=
  ["zgs", "zu", "data", "q_class", "q_pars_init", "q_initializer_pars",
   "q_init_key", "likelihood", "N_basis", "ampgs", "noise", "alpha",
   "lsgs", "lsu", "ampu"]

/-- The keyword arguments `load_mo_model` passes to `MOVarNVKM` (lines 1097-1109),
beyond the three positional ones. -/
def loadMoKwargs : List String :=
  ["q_pars_init", "N_basis", "ampgs", "noise", "alpha", "lsgs", "lsu", "ampu"]

/-- The keyword arguments `load_io_model` (lines 1067-1081) passes that
`IOMOVarNVKM.__init__` (lines 879-901) forwards via `**kwargs` to
`MOVarNVKM.__init__` (`u_noise` is consumed by `IOMOVarNVKM` itself). -/
def loadIoForwardedKwargs : List String :=
  ["q_pars_init", "N_basis", "ampgs", "noise", "alpha", "lsgs", "lsu", "ampu"]

/-- Python keyword-call semantics: a call raises `TypeError` ("unexpected
keyword argument") when some passed keyword is not a parameter name. -/
def kwCall (accepted passed : List String) : Except PyErr Unit :=
  if passed.all (fun k => accepted.contains k) then .ok () else .error .typeError

/-- The constructor call made by `load_mo_model` on any successfully
deserialized mapping with the documented fields. -/
def loadMoModelRun : Except PyErr Unit := kwCall moInitParams loadMoKwargs

/-- The (forwarded) constructor call made by `load_io_model`. -/
def loadIoModelRun : Except PyErr Unit := kwCall moInitParams loadIoForwardedKwargs

/-! ### The optimizer step and the fit loop (`MOVarNVKM.fit`, lines 560-622) -/

/-- Modelled from the spec: one elementwise step of the external
"Adam-family optimizer" (`jax.experimental.optimizers.adam`, an external
collaborator the spec treats as a black box consuming gradients):

    m1   = (1 − b1)·g + b1·m
    v1   = (1 − b2)·g² + b2·v
    mhat = m1 / (1 − b1^(i+1))
    vhat = v1 / (1 − b2^(i+1))
    x1   = x − lr·mhat / (√vhat + eps)

returning `(x1, m1, v1)` for iteration counter `i`. -/
noncomputable def adamScalar (lr b1 b2 eps : ℝ) (i : ℕ) (x m v g : ℝ) : ℝ × ℝ × ℝ :=
  let m1 := (1 - b1) * g + b1 * m
  let v1 := (1 - b2) * g ^ 2 + b2 * v
  let mhat := m1 / (1 - b1 ^ (i + 1))
  let vhat := v1 / (1 - b2 ^ (i + 1))
  (x - lr * mhat / (Real.sqrt vhat + eps), m1, v1)

/-- The Adam update applied entrywise to a matrix parameter, with jax's default
hyperparameters `b1 = 0.9`, `b2 = 0.999`, `eps = 1e-8` (as `opt.adam(lr)` uses
in `fit`), keeping only the parameter component. -/
noncomputable def adamMatStep {n : ℕ} (lr : ℝ) (i : ℕ)
    (x m v g : Matrix (Fin n) (Fin n) ℝ) : Matrix (Fin n) (Fin n) ℝ :=
  fun a b => (adamScalar lr 0.9 0.999 1e-8 i (x a b) (m a b) (v a b) (g a b)).1

/-- The covariance-factor value `MOVarNVKM.fit` uses in the next bound
evaluation: lines 599-601 copy `get_params(opt_state)` into `bound_arg`
unchanged and pass it to `grad_fn`, so the reused `LC` is the raw Adam output —
no triangularization is applied anywhere in the loop (the `choleskyize`
projection inside `_compute_bound`, lines 529-532, is commented out). -/
noncomputable def fitNextLC {n : ℕ} (lr : ℝ) (i : ℕ)
    (x m v g : Matrix (Fin n) (Fin n) ℝ) : Matrix (Fin n) (Fin n) ℝ :=
  adamMatStep lr i x m v g

/-- A concrete objective gradient for `LC` with a single nonzero entry strictly
above the diagonal. -/
def cexGrad : Matrix (Fin 2) (Fin 2) ℝ :=
  Matrix.of ![![0, 1], ![0, 0]]

/-- The fit loop's collaborators, abstracted: `gradFn i p` is the jitted
`value_and_grad(self._compute_bound)` at iteration `i` (the minibatch indices
and random keys are deterministic functions of `i` and the initial key),
`isNan` is `jnp.any(jnp.isnan(·))` on the objective value, `optUpdate` is
`opt_update` and `getParams` is `get_params` of the optimizer triple. -/
structure FitEnv (P G V S : Type) where
  gradFn : ℕ → P → V × G
  isNan : V → Bool
  optUpdate : ℕ → G → S → S
  getParams : S → P

/-- The iteration loop of `MOVarNVKM.fit` (lines 584-610): per iteration,
read the current parameters, evaluate value and gradients, return
`get_params(opt_state)` immediately if the value is NaN (`Sum.inl`), otherwise
apply one optimizer update; after the final iteration the loop falls through
(`Sum.inr`, fit then writes the final parameters back onto the model). -/
def fitLoop {P G V S : Type} (env : FitEnv P G V S) : ℕ → ℕ → S → P ⊕ P
  | 0, _, s => .inr (env.getParams s)
  | Nat.succ n, i, s =>
    let p := env.getParams s
    let vg := env.gradFn i p
    if env.isNan vg.1 then .inl p
    else fitLoop env n (i + 1) (env.optUpdate i vg.2 s)

/-- The optimizer-state trajectory the loop would follow with no NaN guard,
starting at iteration `i` in state `s`: `fitTrajFrom env i s k` is the state
after `k` further updates. -/
def fitTrajFrom {P G V S : Type} (env : FitEnv P G V S) (i : ℕ) (s : S) : ℕ → S
  | 0 => s
  | Nat.succ k =>
    let t := fitTrajFrom env i s k
    env.optUpdate (i + k) (env.gradFn (i + k) (env.getParams t)).2 t

/-- The optimizer-state trajectory from the start of the loop. -/
def fitTraj {P G V S : Type} (env : FitEnv P G V S) (s : S) : ℕ → S :=
  fitTrajFrom env 0 s

/-- A concrete fit environment for evaluation: parameters and states are `ℕ`,
the objective value is its own NaN flag, and the gradient at iteration 2 is
flagged NaN. -/
def cFitEnv : FitEnv ℕ ℕ Bool ℕ where
  gradFn := fun i _ => (decide (i = 2), 1)
  isNan := fun b => b
  optUpdate := fun _ g s => s + g
  getParams := fun s => s

/-! ### Random draws and the random-feature basis (`EQApproxGP`, lines 100-142)

`jax.random` draws are deterministic functions of the key; they are embedded as
an abstract record of draw functions. `R.split key n i` is `jrnd.split(key, n)[i]`;
`normal3`/`normal2` are standard-normal draws of the given shape, `uniform01`
a uniform draw on `[0, 1)` (so that `jrnd.uniform(key, shape, maxval=c)` is
`c * uniform01 key shape`), and `mvnormal key Ns M mu cov` is
`jrnd.multivariate_normal(key, mu, cov, (Ns,))`. -/

/-- The deterministic pseudo-random source. -/
structure Rand (Key : Type) where
  split : Key → ℕ → ℕ → Key
  normal3 : Key → (Ns Nb D : ℕ) → Fin Ns → Fin Nb → Fin D → ℝ
  normal2 : Key → (Ns Nb : ℕ) → Fin Ns → Fin Nb → ℝ
  uniform01 : Key → (Ns Nb : ℕ) → Fin Ns → Fin Nb → ℝ
  mvnormal : Key → (Ns M : ℕ) → (Fin M → ℝ) → Matrix (Fin M) (Fin M) ℝ →
    Fin Ns → Fin M → ℝ

/-- `EQApproxGP.sample_thetas` (lines 100-103): `jrnd.normal(key, shape) / ls`
(the Fourier transform of the isotropic EQ kernel has precision `1/ls²`). -/
noncomputable def sample_thetas {Key : Type} (R : Rand Key) (key : Key)
    (Ns Nb D : ℕ) (ls : ℝ) : Fin Ns → Fin Nb → Fin D → ℝ :=
  fun s b d => R.normal3 key Ns Nb D s b d / ls

/-- `EQApproxGP.sample_betas` (lines 105-107):
`jrnd.uniform(key, shape, maxval=2π)`. -/
noncomputable def sample_betas {Key : Type} (R : Rand Key) (key : Key)
    (Ns Nb : ℕ) : Fin Ns → Fin Nb → ℝ :=
  fun s b => 2 * Real.pi * R.uniform01 key Ns Nb s b

/-- `EQApproxGP.sample_ws` (lines 109-111):
`amp * sqrt(2 / N_basis) * jrnd.normal(key, shape)`. -/
noncomputable def sample_ws {Key : Type} (R : Rand Key) (key : Key)
    (Ns Nb : ℕ) (amp : ℝ) : Fin Ns → Fin Nb → ℝ :=
  fun s b => amp * Real.sqrt (2 / (Nb : ℝ)) * R.normal2 key Ns Nb s b

/-- `EQApproxGP.sample_basis` (lines 134-142):

    skey = jrnd.split(key, 3)
    thetas = sample_thetas(skey[0], (Ns, N_basis, D), ls)
    betas  = sample_betas(skey[1], (Ns, N_basis))
    ws     = sample_ws(skey[2], (Ns, N_basis), amp)
-/
noncomputable def sample_basis {Key : Type} (R : Rand Key) (key : Key)
    (Ns Nb D : ℕ) (amp ls : ℝ) :
    (Fin Ns → Fin Nb → Fin D → ℝ) × (Fin Ns → Fin Nb → ℝ) × (Fin Ns → Fin Nb → ℝ) :=
  (sample_thetas R (R.split key 3 0) Ns Nb D ls,
   sample_betas R (R.split key 3 1) Ns Nb,
   sample_ws R (R.split key 3 2) Ns Nb amp)

/-- A concrete all-zero random source over the unit key type, for evaluation. -/
def cRand : Rand Unit where
  split := fun _ _ _ => ()
  normal3 := fun _ _ _ _ _ _ _ => 0
  normal2 := fun _ _ _ _ _ => 0
  uniform01 := fun _ _ _ _ _ => 0
  mvnormal := fun _ _ _ _ _ _ _ => 0

/-! ### Matheron correction and posterior inducing-value draws
(`EQApproxGP.phi` / `compute_Phi` / `compute_q`, lines 113-132;
`VarEQApproxGP._sample_vs` / `sample_qs`, lines 244-276) -/

/-- `compute_Phi` (lines 113-119): `Φ[m, b] = cos(θ_b · z_m + β_b)`. -/
noncomputable def compute_Phi {M D Nb : ℕ} (z : Fin M → Fin D → ℝ)
    (thetas : Fin Nb → Fin D → ℝ) (betas : Fin Nb → ℝ) : Fin M → Fin Nb → ℝ :=
  fun mi b => Real.cos ((∑ d, thetas b d * z mi d) + betas b)

/-- `compute_q` (lines 121-132): solves `Kvv q = v − Φ w` through the Cholesky
factor. -/
noncomputable def compute_q {M D Nb : ℕ} (z : Fin M → Fin D → ℝ) (v : Fin M → ℝ)
    (LK : Matrix (Fin M) (Fin M) ℝ) (thetas : Fin Nb → Fin D → ℝ)
    (betas : Fin Nb → ℝ) (ws : Fin Nb → ℝ) : Fin M → ℝ :=
  choSolveVec LK (fun mi => v mi - ∑ b, compute_Phi z thetas betas mi b * ws b)

/-- `VarEQApproxGP._sample_vs` (lines 244-248): draws from
`N(mu, JITTER·I + LC LCᵀ)`. -/
noncomputable def sample_vs {Key : Type} (R : Rand Key) (jitter : ℝ) {M : ℕ}
    (LC : Matrix (Fin M) (Fin M) ℝ) (mu : Fin M → ℝ) (Ns : ℕ) (key : Key) :
    Fin Ns → Fin M → ℝ :=
  R.mvnormal key Ns M mu (jitter • (1 : Matrix (Fin M) (Fin M) ℝ) + LC * LCᵀ)

/-- `VarEQApproxGP.sample_qs` (lines 270-276): inducing-value draws pushed
through the canonical-weight solve, batched over the sample axis. `cov amp ls`
stands for `compute_covariances(amp, ls)[1]` (the Gram matrix over `z` uses
`eq_kernel`, `JITTER` and `jnp.linalg.cholesky` from modules outside src/, so
the factor is kept abstract as a function of the hyperparameters). -/
noncomputable def sample_qs {Key : Type} (R : Rand Key) (jitter : ℝ)
    {M D Nb Ns : ℕ} (z : Fin M → Fin D → ℝ)
    (cov : ℝ → ℝ → Matrix (Fin M) (Fin M) ℝ)
    (mu : Fin M → ℝ) (LC : Matrix (Fin M) (Fin M) ℝ) (amp ls : ℝ)
    (thetas : Fin Ns → Fin Nb → Fin D → ℝ) (betas : Fin Ns → Fin Nb → ℝ)
    (ws : Fin Ns → Fin Nb → ℝ) (key : Key) : Fin Ns → Fin M → ℝ :=
  let vs := sample_vs R jitter LC mu Ns key
  let LK := cov amp ls
  fun s => compute_q z (vs s) LK (thetas s) (betas s) (ws s)

/-- Modelled from the spec: `nvkm.utils.l2p` ("lengthscale to precision"), the
EQ kernel's spectral precision for lengthscale `l` (utils.py is not under
src/). It is only passed through to the abstract integral engine. -/
noncomputable def l2p (l : ℝ) : ℝ := 1 / (2 * l ^ 2)

/-! ### The multi-output model (`MOVarNVKM`, lines 279-558)

The model state after construction: `O` output channels, `C i` filter GPs for
channel `i` (the filter GP at position `j` has dimension `j + 1` and `Mg i j`
inducing points, amplitude fixed to `1.0`), one shared input-process GP with
`Mu` inducing points. `covG i j amp ls` / `covU amp ls` stand for the
corresponding `compute_covariances(amp, ls)[1]` Cholesky factors (their Gram
construction lives in modules outside src/ and is kept abstract), `engine` is
`Full.I` of `nvkm.integrals` (outside src/, abstract; its result carrier is the
type `A`), and `likelihood` the injected likelihood function (outside src/,
abstract; `Y` is the type of one channel's observations). -/

/-- The constructed model (`MOVarNVKM.__init__` / `construct_gps`). -/
structure MOModel (Key A Y : Type) where
  R : Rand Key
  O : ℕ
  C : Fin O → ℕ
  Mg : (i : Fin O) → Fin (C i) → ℕ
  Mu : ℕ
  Nbasis : ℕ
  jitter : ℝ
  zg : (i : Fin O) → (j : Fin (C i)) → Fin (Mg i j) → Fin ((j : ℕ) + 1) → ℝ
  zu : Fin Mu → ℝ
  covG : (i : Fin O) → (j : Fin (C i)) → ℝ → ℝ → Matrix (Fin (Mg i j)) (Fin (Mg i j)) ℝ
  covU : ℝ → ℝ → Matrix (Fin Mu) (Fin Mu) ℝ
  alpha : (i : Fin O) → Fin (C i) → ℝ
  engine : (Nt Ns M D : ℕ) → (Fin Nt → ℝ) → (Fin M → Fin D → ℝ) → (Fin Mu → ℝ) →
    (Fin Ns → Fin Nbasis → Fin D → ℝ) → (Fin Ns → Fin Nbasis → ℝ) →
    (Fin Ns → Fin Nbasis → Fin 1 → ℝ) → (Fin Ns → Fin Nbasis → ℝ) →
    (Fin Ns → Fin Nbasis → ℝ) → (Fin Ns → Fin M → ℝ) →
    (Fin Ns → Fin Nbasis → ℝ) → (Fin Ns → Fin Mu → ℝ) →
    ℝ → ℝ → ℝ → ℝ → ℝ → A
  likelihood : Y → Option A → ℝ → ℝ

/-- The variational parameter dictionary `q_pars` (lines 388-394). -/
structure QPars {Key A Y : Type} (m : MOModel Key A Y) where
  mu_u : Fin m.Mu → ℝ
  LC_us : Matrix (Fin m.Mu) (Fin m.Mu) ℝ
  mu_gs : (i : Fin m.O) → (j : Fin (m.C i)) → Fin (m.Mg i j) → ℝ
  LC_gs : (i : Fin m.O) → (j : Fin (m.C i)) → Matrix (Fin (m.Mg i j)) (Fin (m.Mg i j)) ℝ

/-- The non-key arguments of `MOVarNVKM._sample(ts, q_pars, ampgs, lsgs, ampu,
lsu, N_s, keys)` (line 446), bundled: query times per channel (`none` for a
channel without queries), variational parameters and hyperparameters. -/
structure SampleArgs {Key A Y : Type} (m : MOModel Key A Y) where
  Nt : Fin m.O → ℕ
  ts : (i : Fin m.O) → Option (Fin (Nt i) → ℝ)
  q : QPars m
  ampgs : (i : Fin m.O) → Fin (m.C i) → ℝ
  lsgs : (i : Fin m.O) → Fin (m.C i) → ℝ
  ampu : ℝ
  lsu : ℝ
  Ns : ℕ

/-- `keys = jrnd.split(keys[-1], 3)` (line 466) acting on the key triple. -/
def splitTriple {Key : Type} (R : Rand Key) (ks : Fin 3 → Key) : Fin 3 → Key :=
  fun r => R.split (ks 2) 3 (r : ℕ)

/-- The input-process basis draw at the top of `_sample` (line 449):
`u_gp.sample_basis(keys[0], N_s, ampu, lsu)` with `D = 1`. -/
noncomputable def uBasis {Key A Y : Type} (m : MOModel Key A Y) (a : SampleArgs m)
    (keys : Fin 3 → Key) :
    (Fin a.Ns → Fin m.Nbasis → Fin 1 → ℝ) × (Fin a.Ns → Fin m.Nbasis → ℝ) ×
      (Fin a.Ns → Fin m.Nbasis → ℝ) :=
  sample_basis m.R (keys 0) a.Ns m.Nbasis 1 a.ampu a.lsu

/-- The shared input-process canonical weights (lines 456-458):
`u_gp.sample_qs(q_pars["mu_u"], q_pars["LC_us"], ampu, lsu, u_basis_samps, N_s,
keys[1])`. -/
noncomputable def uQs {Key A Y : Type} (m : MOModel Key A Y) (a : SampleArgs m)
    (keys : Fin 3 → Key) : Fin a.Ns → Fin m.Mu → ℝ :=
  sample_qs m.R m.jitter (fun mi _ => m.zu mi) m.covU a.q.mu_u a.q.LC_us
    a.ampu a.lsu (uBasis m a keys).1 (uBasis m a keys).2.1 (uBasis m a keys).2.2
    (keys 1)

section ModelSample

variable {Key A Y : Type} [AddCommMonoid A] [SMul ℝ A]

/-- The integral-engine evaluation for filter order `j` of channel `i`
(lines 467-498), as a function of the key triple `ks` current after the split
at the top of that loop iteration (`keys0` is the original triple, from which
the shared input-process draws were taken):

    g_basis_samps = g_gp.sample_basis(ks[0], N_s, 1.0, lsgs[i][j])
    qgl = g_gp.sample_qs(mu_gs[i][j], LC_gs[i][j], 1.0, lsgs[i][j],
                         g_basis_samps, N_s, ks[1])
    Full.I(ts[i], g_gp.z, u_gp.z, thetagl, betagl, thetaul, betaul,
        wgl, qgl, wul, qul, 1.0, ampu, alpha[i][j],
        l2p(lsgs[i][j]), l2p(lsu))
-/
noncomputable def gEngine (m : MOModel Key A Y) (a : SampleArgs m)
    (keys0 : Fin 3 → Key) (i : Fin m.O) (j : Fin (m.C i))
    (t : Fin (a.Nt i) → ℝ) (ks : Fin 3 → Key) : A :=
  let basis := sample_basis m.R (ks 0) a.Ns m.Nbasis ((j : ℕ) + 1) 1 (a.lsgs i j)
  let qgl := sample_qs m.R m.jitter (m.zg i j) (m.covG i j) (a.q.mu_gs i j)
    (a.q.LC_gs i j) 1 (a.lsgs i j) basis.1 basis.2.1 basis.2.2 (ks 1)
  m.engine (a.Nt i) a.Ns (m.Mg i j) ((j : ℕ) + 1) t (m.zg i j) m.zu
    basis.1 basis.2.1 (uBasis m a keys0).1 (uBasis m a keys0).2.1
    basis.2.2 qgl (uBasis m a keys0).2.2 (uQs m a keys0)
    1 a.ampu (m.alpha i j) (l2p (a.lsgs i j)) (l2p a.lsu)

/-- The full accumulated term: `ampgs[i][j]**(j+1) * Full.I(...)`. -/
noncomputable def gTerm (m : MOModel Key A Y) (a : SampleArgs m)
    (keys0 : Fin 3 → Key) (i : Fin m.O) (j : Fin (m.C i))
    (t : Fin (a.Nt i) → ℝ) (ks : Fin 3 → Key) : A :=
  (a.ampgs i j ^ ((j : ℕ) + 1)) • gEngine m a keys0 i j t ks

/-- The inner loop `for j in range(0, self.C[i])` (lines 464-499) after `c`
iterations: the accumulated `sampsi` (starting from `jnp.zeros`) and the
current key triple. Each iteration first performs
`keys = jrnd.split(keys[-1], 3)` and then adds its term. -/
noncomputable def chanLoop (m : MOModel Key A Y) (a : SampleArgs m)
    (keys0 : Fin 3 → Key) (i : Fin m.O) (t : Fin (a.Nt i) → ℝ) :
    (c : ℕ) → c ≤ m.C i → (Fin 3 → Key) → A × (Fin 3 → Key)
  | 0, _, ks => (0, ks)
  | Nat.succ c, hc, ks =>
    let prev := chanLoop m a keys0 i t c (Nat.le_of_succ_le hc) ks
    let ks2 := splitTriple m.R prev.2
    (prev.1 + gTerm m a keys0 i ⟨c, hc⟩ t ks2, ks2)

/-- The outer loop `for i in range(self.O)` (lines 459-500) over the first `k`
channels: the per-channel results (`none` for skipped channels and channels not
yet processed) and the key-triple state, which is threaded across channels. -/
noncomputable def chansLoop (m : MOModel Key A Y) (a : SampleArgs m)
    (keys0 : Fin 3 → Key) :
    (k : ℕ) → k ≤ m.O → (Fin m.O → Option A) × (Fin 3 → Key)
  | 0, _ => (fun _ => none, keys0)
  | Nat.succ k, hk =>
    let prev := chansLoop m a keys0 k (Nat.le_of_succ_le hk)
    match a.ts ⟨k, hk⟩ with
    | none => (fun i2 => if i2 = ⟨k, hk⟩ then none else prev.1 i2, prev.2)
    | some t =>
      let res := chanLoop m a keys0 ⟨k, hk⟩ t (m.C ⟨k, hk⟩) le_rfl prev.2
      (fun i2 => if i2 = ⟨k, hk⟩ then some res.1 else prev.1 i2, res.2)

/-- `MOVarNVKM._sample(ts, q_pars, ampgs, lsgs, ampu, lsu, N_s, keys)`
(lines 445-501). -/
noncomputable def moSample (m : MOModel Key A Y) (a : SampleArgs m)
    (keys : Fin 3 → Key) : Fin m.O → Option A :=
  (chansLoop m a keys m.O le_rfl).1

/-- Spec-side bookkeeping: the number of `jrnd.split(keys[-1], 3)` calls
performed while processing the first `k` channels (`C i` for each channel with
query times, none for a skipped channel). -/
def splitsBefore {Key A Y : Type} (m : MOModel Key A Y) (a : SampleArgs m) :
    (k : ℕ) → k ≤ m.O → ℕ
  | 0, _ => 0
  | Nat.succ k, hk =>
    splitsBefore m a k (Nat.le_of_succ_le hk) +
      (match a.ts ⟨k, hk⟩ with
       | none => 0
       | some _ => m.C ⟨k, hk⟩)

/-- Spec-side bookkeeping: the key triple after `n` splits. -/
def ksIter {Key : Type} (R : Rand Key) (keys : Fin 3 → Key) : ℕ → Fin 3 → Key
  | 0 => keys
  | Nat.succ n => splitTriple R (ksIter R keys n)

end ModelSample

/-- `MOVarNVKM._KL(mu_u, mu_gs, LC_us, LC_gs, lsu, lsgs)` (lines 401-410): the
KL terms of every filter GP (`compute_covariances(1.0, lsgs[i][j])`) plus the
input-process GP (`compute_covariances(1.0, lsu)`). -/
noncomputable def moKL {Key A Y : Type} (m : MOModel Key A Y) (q : QPars m)
    (lsu : ℝ) (lsgs : (i : Fin m.O) → Fin (m.C i) → ℝ) : ℝ :=
  (∑ i, ∑ j, varKL (q.LC_gs i j) (q.mu_gs i j) (m.covG i j 1 (lsgs i j)))
    + varKL q.LC_us q.mu_u (m.covU 1 lsu)

section ModelBound

variable {Key A Y : Type} [AddCommMonoid A] [SMul ℝ A]

/-- `MOVarNVKM._compute_bound(data, q_pars, ampgs, lsgs, ampu, lsu, noise, N_s,
key)` (lines 525-545):

    KL = self._KL(...)
    samples = self._sample(xs, q_pars, ampgs, lsgs, ampu, lsu, N_s,
                           jrnd.split(key, 3))
    like = sum over i of self.likelihood(ys[i], samples[i], noise[i])
    return -(KL + like)

(the query times `xs` are `a.ts`; `ys` are the per-channel observations). -/
noncomputable def moComputeBound (m : MOModel Key A Y) (a : SampleArgs m)
    (ys : Fin m.O → Y) (noise : Fin m.O → ℝ) (key : Key) : ℝ :=
  let KL := moKL m a.q a.lsu a.lsgs
  let samples := moSample m a (fun r => m.R.split key 3 (r : ℕ))
  let like := ∑ i, m.likelihood (ys i) (samples i) (noise i)
  Neg.neg (KL + like)

end ModelBound

/-! ### Concrete instances for evaluation -/

/-- A concrete one-channel, one-filter model (`O = 1`, `C = [1]`, one inducing
point everywhere, all prior Cholesky factors `[[1]]`, engine and likelihood
instantiated to the zero functions, which the counterexamples do not depend
on). -/
noncomputable def cModel : MOModel Unit ℝ ℝ where
  R := cRand
  O := 1
  C := fun _ => 1
  Mg := fun _ _ => 1
  Mu := 1
  Nbasis := 1
  jitter := 0
  zg := fun _ _ _ _ => 0
  zu := fun _ => 0
  covG := fun _ _ _ _ => 1
  covU := fun _ _ => 1
  alpha := fun _ _ => 0
  engine := fun _ _ _ _ _ _ _ _ _ _ _ _ _ _ _ _ _ _ _ _ => 0
  likelihood := fun _ _ _ => 0

/-- Variational parameters with `LC_gs = [[e]]` (and everything else trivial). -/
noncomputable def cQPars : QPars cModel where
  mu_u := fun _ => 0
  LC_us := 1
  mu_gs := fun _ _ _ => 0
  LC_gs := fun _ _ => cexLC

/-- Sampling arguments: one query time per channel, unit hyperparameters. -/
noncomputable def cSampleArgs : SampleArgs cModel where
  Nt := fun _ => 1
  ts := fun _ => some (fun _ => 0)
  q := cQPars
  ampgs := fun _ _ => 1
  lsgs := fun _ _ => 1
  ampu := 1
  lsu := 1
  Ns := 1

/-- Variational parameters with all factors `[[1]]` (lower-triangular with
positive diagonal). -/
noncomputable def wQPars : QPars cModel where
  mu_u := fun _ => 0
  LC_us := 1
  mu_gs := fun _ _ _ => 0
  LC_gs := fun _ _ => 1

/-- Sampling arguments over `wQPars`. -/
noncomputable def wSampleArgs : SampleArgs cModel where
  Nt := fun _ => 1
  ts := fun _ => some (fun _ => 0)
  q := wQPars
  ampgs := fun _ _ => 1
  lsgs := fun _ _ => 1
  ampu := 1
  lsu := 1
  Ns := 1

end NVKM

namespace NVKM

open Matrix
open scoped BigOperators

/-! ### Theorems: the KL term (C1, C10) -/

theorem lowTri_one {n : ℕ} : LowTri (1 : Matrix (Fin n) (Fin n) ℝ) :=
  fun _ _ h => Matrix.one_apply_ne (ne_of_lt h)

theorem posDiag_one {n : ℕ} (i : Fin n) :
    (0 : ℝ) < (1 : Matrix (Fin n) (Fin n) ℝ) i i := by
  simp

/-- For a lower-triangular factor with positive diagonal, the log-determinant of
`L Lᵀ` is twice the sum of the logs of the diagonal of `L`. -/
theorem log_det_mul_transpose {n : ℕ} (L : Matrix (Fin n) (Fin n) ℝ)
    (hL : LowTri L) (hd : ∀ i, 0 < L i i) :
    Real.log (L * Lᵀ).det = 2 * ∑ i, Real.log (L i i) := by
  have hbt : L.BlockTriangular OrderDual.toDual := fun i j hij => hL i j hij
  have hdet : L.det = ∏ i, L i i := Matrix.det_of_lowerTriangular L hbt
  have hne : L.det ≠ 0 := by
    rw [hdet]
    exact ne_of_gt (Finset.prod_pos fun i _ => hd i)
  rw [Matrix.det_mul, Matrix.det_transpose, Real.log_mul hne hne, hdet,
    Real.log_prod _ _ fun i _ => ne_of_gt (hd i)]
  ring

/-- Shared helper: what `varKL` actually computes, written with explicit
inverse, trace and (halved) log-determinants. -/
theorem varKL_eq_neg_specKLHalf {n : ℕ} (LC : Matrix (Fin n) (Fin n) ℝ)
    (mu : Fin n → ℝ) (LK : Matrix (Fin n) (Fin n) ℝ)
    (hLC : LowTri LC) (hLK : LowTri LK)
    (hdC : ∀ i, 0 < LC i i) (hdK : ∀ i, 0 < LK i i) :
    varKL LC mu LK = -specKLHalf LC mu LK := by
  have hC := log_det_mul_transpose LC hLC hdC
  have hK := log_det_mul_transpose LK hLK hdK
  simp only [varKL, specKLHalf, choSolveVec, choSolveMat, hC, hK]
  ring

theorem varKL_cex_a : varKL (1 : Matrix (Fin 1) (Fin 1) ℝ) cexMu 1 = -(1/2) := by
  simp [varKL, choSolveVec, choSolveMat, cexMu, dotProduct, Fin.sum_univ_one,
    Matrix.trace_fin_one, Matrix.one_mulVec]
  norm_num

theorem specKL_cex_a : specKL (1 : Matrix (Fin 1) (Fin 1) ℝ) cexMu 1 = 1/2 := by
  simp [specKL, cexMu, dotProduct, Fin.sum_univ_one,
    Matrix.trace_fin_one, Matrix.one_mulVec]
  norm_num

theorem varKL_cex_b :
    varKL cexLC (fun _ => 0) 1 = 1 - Real.exp 2 / 2 := by
  simp [varKL, choSolveVec, choSolveMat, cexLC, dotProduct, Fin.sum_univ_one,
    Matrix.trace_fin_one, Matrix.one_mulVec, Matrix.mul_apply, Matrix.transpose_apply,
    Real.log_exp]
  rw [show Real.exp 2 = Real.exp 1 ^ 2 by rw [← Real.exp_nat_mul]; norm_num]
  ring

theorem specKL_cex_b :
    specKL cexLC (fun _ => 0) 1 = Real.exp 2 / 2 - 3 / 2 := by
  simp [specKL, cexLC, dotProduct, Fin.sum_univ_one, Matrix.trace_fin_one,
    Matrix.one_mulVec, Matrix.mul_apply, Matrix.transpose_apply,
    Matrix.det_fin_one, Real.log_exp,
    Real.log_mul (Real.exp_ne_zero 1) (Real.exp_ne_zero 1)]
  rw [show Real.exp 2 = Real.exp 1 ^ 2 by rw [← Real.exp_nat_mul]; norm_num]
  ring

/-- C1, counterexample. At `mu = [1]`, `LC = LKvv = [[1]]` the code's `KL()`
returns `−1/2` while the spec's closed form is `1/2` (so `KL()` is not the
spec's formula); and at `mu = [0]`, `LC = [[e]]`, `LKvv = [[1]]` it is not the
*negation* of the spec's formula either (`1 − e²/2` against `3/2 − e²/2`): the
log-determinant terms are also off by a factor of two. -/
theorem KL_differs_from_spec_formula :
    varKL (1 : Matrix (Fin 1) (Fin 1) ℝ) cexMu 1 <
      specKL (1 : Matrix (Fin 1) (Fin 1) ℝ) cexMu 1 ∧
    varKL cexLC (fun _ => 0) 1 < -specKL cexLC (fun _ => 0) 1 := by
  constructor
  · rw [varKL_cex_a, specKL_cex_a]; norm_num
  · rw [varKL_cex_b, specKL_cex_b]; linarith

/-- C1 (amended): for every variational GP state (`mu`, lower-triangular `LC`
with positive diagonal, prior Cholesky factor `LKvv` lower-triangular with
positive diagonal, `Kvv = LKvv LKvvᵀ`), `VarEQApproxGP.KL()` returns the
*negative* of `0.5·[muᵀ Kvv⁻¹ mu + tr(Kvv⁻¹ LC LCᵀ) + ½·log|Kvv| − ½·log|LC LCᵀ| − M]`
(`specKLHalf`): compared to the claimed KL divergence the overall sign is
flipped and both log-determinant terms are halved. -/
theorem KL_closed_form_corrected {n : ℕ} (LC : Matrix (Fin n) (Fin n) ℝ)
    (mu : Fin n → ℝ) (LK : Matrix (Fin n) (Fin n) ℝ)
    (hLC : LowTri LC) (hLK : LowTri LK)
    (hdC : ∀ i, 0 < LC i i) (hdK : ∀ i, 0 < LK i i) :
    varKL LC mu LK = -specKLHalf LC mu LK :=
  varKL_eq_neg_specKLHalf LC mu LK hLC hLK hdC hdK

/-- Witness for `KL_closed_form_corrected` at the concrete state
`mu = [1]`, `LC = LKvv = [[1]]`. -/
theorem KL_closed_form_corrected_witness :
    varKL (1 : Matrix (Fin 1) (Fin 1) ℝ) cexMu 1 =
      -specKLHalf (1 : Matrix (Fin 1) (Fin 1) ℝ) cexMu 1 :=
  KL_closed_form_corrected 1 cexMu 1 lowTri_one lowTri_one
    (fun i => posDiag_one i) (fun i => posDiag_one i)

/-- C10: when the variational mean is the zero vector and the variational
factor equals the prior Cholesky factor (posterior equals prior),
`VarEQApproxGP.KL()` evaluates to `0` (for an invertible `Kvv = LKvv LKvvᵀ`,
which the Cholesky factor of the jittered positive-definite Gram matrix is). -/
theorem KL_prior_eq_zero {n : ℕ} (LK : Matrix (Fin n) (Fin n) ℝ)
    (h : IsUnit ((LK * LKᵀ)).det) :
    varKL LK (0 : Fin n → ℝ) LK = 0 := by
  simp only [varKL, choSolveVec, choSolveMat]
  rw [Matrix.nonsing_inv_mul _ h]
  simp [Matrix.trace_one]

/-- Witness for `KL_prior_eq_zero` at `LKvv = [[1]]`. -/
theorem KL_prior_eq_zero_witness :
    varKL (1 : Matrix (Fin 1) (Fin 1) ℝ) (0 : Fin 1 → ℝ) 1 = 0 :=
  KL_prior_eq_zero 1 (by simp)

/-! ### Theorems: dimension checking (C9) -/

/-- C9: for every query array `t` (and inducing input `z`) whose trailing
dimension disagrees with the GP's declared dimension `D`, the check raises a
hard error — except that a 1-D array paired with `D = 1` is silently reshaped
to a column vector and accepted. Both the check in `EQApproxGP.sample` and the
one in `EQApproxGP.__init__` behave this way. -/
theorem dim_mismatch_errors (t : PyArr) (D : ℕ) (h : trailingDim t ≠ D) :
    (errB (sampleDimCheck t D) = true ∨
      (t.isOneD = true ∧ D = 1 ∧ sampleDimCheck t D = .ok t.colVec)) ∧
    (errB (initDimCheck t D) = true ∨
      (t.isOneD = true ∧ D = 1 ∧ initDimCheck t D = .ok t.colVec)) := by
  cases t with
  | one n f =>
    by_cases hD : D = 1
    · subst hD
      exact ⟨Or.inr ⟨rfl, rfl, by simp [sampleDimCheck, PyArr.colVec]⟩,
             Or.inr ⟨rfl, rfl, by simp [initDimCheck, PyArr.colVec]⟩⟩
    · exact ⟨Or.inl (by simp [sampleDimCheck, errB, hD]),
             Or.inl (by simp [initDimCheck, errB, hD])⟩
  | two n m f =>
    have hm : m ≠ D := h
    exact ⟨Or.inl (by simp [sampleDimCheck, errB, hm]),
           Or.inl (by simp [initDimCheck, errB, hm])⟩

/-- Witness for `dim_mismatch_errors`: a 2-D query of shape `(1, 3)` against a
GP of dimension `D = 1`. -/
theorem dim_mismatch_errors_witness :
    (errB (sampleDimCheck (PyArr.two 1 3 (fun _ _ => 0)) 1) = true ∨
      ((PyArr.two 1 3 (fun _ _ => 0)).isOneD = true ∧ (1 : ℕ) = 1 ∧
        sampleDimCheck (PyArr.two 1 3 (fun _ _ => 0)) 1 =
          .ok (PyArr.two 1 3 (fun _ _ => 0)).colVec)) ∧
    (errB (initDimCheck (PyArr.two 1 3 (fun _ _ => 0)) 1) = true ∨
      ((PyArr.two 1 3 (fun _ _ => 0)).isOneD = true ∧ (1 : ℕ) = 1 ∧
        initDimCheck (PyArr.two 1 3 (fun _ _ => 0)) 1 =
          .ok (PyArr.two 1 3 (fun _ _ => 0)).colVec)) :=
  dim_mismatch_errors (PyArr.two 1 3 (fun _ _ => 0)) 1 (by decide)

/-! ### Theorems: `IOMOVarNVKM` failures (C6) and the loaders (C7) -/

/-- C6 (amended): every call of `IOMOVarNVKM.joint_sample` fails with
`AttributeError` on `q_of_v`, every call of `IOMOVarNVKM.fit` (any iteration
count) fails with `AttributeError` on `_compute_p_pars`, and every call of
`IOMOVarNVKM.compute_bound` also fails — but with a `TypeError` (the inherited
wrapper passes 9 positional arguments to the 10-parameter override), not an
`AttributeError`. -/
theorem io_methods_always_fail :
    ioJointSampleRun = .error (.attributeError "q_of_v") ∧
    (∀ its : ℕ, ioFitRun its = .error (.attributeError "_compute_p_pars")) ∧
    ioComputeBoundRun = .error .typeError := by
  refine ⟨rfl, fun its => ?_, rfl⟩
  cases its with
  | zero => rfl
  | succ n => rfl

/-- C6, counterexample: a call of `IOMOVarNVKM.compute_bound` does *not* fail
with an `AttributeError` — it fails with a `TypeError` before any undefined
attribute is reached, because `MOVarNVKM.compute_bound` passes 9 positional
arguments to `IOMOVarNVKM._compute_bound`, which requires 10. -/
theorem compute_bound_fails_with_type_error :
    isAttrErrB ioComputeBoundRun = false ∧
    ioComputeBoundRun = .error PyErr.typeError := by
  exact ⟨rfl, rfl⟩

/-- C7: neither loader can reconstruct a model. Both `load_mo_model` and
`load_io_model` pass the keyword argument `q_pars_init`, which
`MOVarNVKM.__init__` does not accept (its docstring documents the parameter,
but the signature does not have it), so every load raises `TypeError` instead
of reconstructing the model. -/
theorem load_model_type_error :
    loadMoModelRun = .error PyErr.typeError ∧
    loadIoModelRun = .error PyErr.typeError ∧
    loadMoKwargs.contains "q_pars_init" = true ∧
    moInitDocArgs.contains "q_pars_init" = true ∧
    moInitParams.contains "q_pars_init" = false := by
  exact ⟨rfl, rfl, rfl, rfl, rfl⟩

/-! ### Theorems: no re-triangularization in `fit` (C3) -/

/-- C3, evaluation at the failing input: starting from the lower-triangular
`LC = 0` (zero Adam moments, iteration 0, `lr = 1`) with an objective gradient
whose entry `(0, 1)` is `1`, the covariance factor reused by the next bound
evaluation has entry `(0, 1) = −1/(1 + 1e−8) < 0`: it is *not*
lower-triangular, so no masking/triangularization happened between the
optimizer step and the reuse. -/
theorem fit_reuses_untriangularized :
    fitNextLC 1 0 (0 : Matrix (Fin 2) (Fin 2) ℝ) 0 0 cexGrad 0 1 < 0 := by
  have hv : ((1 - 0.999) * (1 : ℝ) ^ 2 + 0.999 * 0) / (1 - 0.999 ^ (0 + 1)) = 1 := by
    norm_num
  simp only [fitNextLC, adamMatStep, adamScalar, cexGrad, Matrix.zero_apply,
    Matrix.of_apply, Matrix.cons_val', Matrix.cons_val_zero, Matrix.cons_val_one,
    Matrix.head_cons, Matrix.empty_val', Matrix.cons_val_fin_one]
  rw [hv, Real.sqrt_one]
  norm_num

/-! ### Theorems: the NaN guard of `fit` (C4) -/

theorem fitTrajFrom_shift {P G V S : Type} (env : FitEnv P G V S) (i : ℕ) (s : S)
    (j : ℕ) :
    fitTrajFrom env (i + 1) (env.optUpdate i (env.gradFn i (env.getParams s)).2 s) j
      = fitTrajFrom env i s (j + 1) := by
  induction j with
  | zero => simp [fitTrajFrom]
  | succ j ih =>
    simp only [fitTrajFrom]
    rw [ih, show i + 1 + j = i + (j + 1) from by omega]
    rfl

theorem fitLoop_early_return {P G V S : Type} (env : FitEnv P G V S) :
    ∀ (k n i : ℕ) (s : S), k < n →
    (∀ j, j < k →
      env.isNan (env.gradFn (i + j) (env.getParams (fitTrajFrom env i s j))).1 = false) →
    env.isNan (env.gradFn (i + k) (env.getParams (fitTrajFrom env i s k))).1 = true →
    fitLoop env n i s = .inl (env.getParams (fitTrajFrom env i s k)) := by
  intro k
  induction k with
  | zero =>
    intro n i s hk hpre hnan
    cases n with
    | zero => exact absurd hk (by omega)
    | succ m =>
      have h0 : env.isNan (env.gradFn i (env.getParams s)).1 = true := by
        simpa [fitTrajFrom] using hnan
      simp [fitLoop, h0, fitTrajFrom]
  | succ k ih =>
    intro n i s hk hpre hnan
    cases n with
    | zero => exact absurd hk (by omega)
    | succ m =>
      have h0 : env.isNan (env.gradFn i (env.getParams s)).1 = false := by
        simpa [fitTrajFrom] using hpre 0 (Nat.succ_pos k)
      have hstep : fitLoop env (m + 1) i s
          = fitLoop env m (i + 1) (env.optUpdate i (env.gradFn i (env.getParams s)).2 s) := by
        simp [fitLoop, h0]
      rw [hstep]
      have hres := ih m (i + 1) (env.optUpdate i (env.gradFn i (env.getParams s)).2 s)
        (by omega)
        (fun j hj => by
          rw [fitTrajFrom_shift, show i + 1 + j = i + (j + 1) from by omega]
          exact hpre (j + 1) (by omega))
        (by
          rw [fitTrajFrom_shift, show i + 1 + k = i + (k + 1) from by omega]
          exact hnan)
      rw [hres, fitTrajFrom_shift]

/-- C4: if the objective value at iteration `k` is NaN (and it was not at any
earlier iteration), `fit` returns the optimizer's current parameter snapshot —
the state reached after exactly the `k` pre-divergence updates, not yet updated
with the NaN-producing gradient — via the early `return get_params(opt_state)`
(`Sum.inl`), performing no further optimizer updates; the loop is a total
function, so no exception is raised. -/
theorem fit_nan_guard {P G V S : Type} (env : FitEnv P G V S) (s0 : S) (n k : ℕ)
    (hk : k < n)
    (hpre : ∀ j, j < k →
      env.isNan (env.gradFn j (env.getParams (fitTraj env s0 j))).1 = false)
    (hnan : env.isNan (env.gradFn k (env.getParams (fitTraj env s0 k))).1 = true) :
    fitLoop env n 0 s0 = .inl (env.getParams (fitTraj env s0 k)) := by
  apply fitLoop_early_return env k n 0 s0 hk
  · intro j hj
    simpa [fitTraj] using hpre j hj
  · simpa [fitTraj] using hnan

/-- Witness for `fit_nan_guard`: in the concrete environment whose objective
goes NaN at iteration 2 of 5, the loop returns early with the state after
exactly two updates. -/
theorem fit_nan_guard_witness :
    fitLoop cFitEnv 5 0 0 = .inl (cFitEnv.getParams (fitTraj cFitEnv 0 2)) :=
  fit_nan_guard cFitEnv 0 5 2 (by decide) (by decide) (by decide)

/-! ### Theorems: the random-feature basis draws (C8) -/

/-- C8: `sample_basis(key, Ns, amp, ls)` returns `thetas` equal to the
standard-normal draw under subkey 0 scaled by `1/ls` (shape `(Ns, N_basis, D)`,
enforced by the index types), `betas = 2π · uniform01` under subkey 1 — hence
in `[0, 2π)` whenever the uniform draw is in `[0, 1)` — of shape
`(Ns, N_basis)`, and `ws` equal to the standard-normal draw under subkey 2
scaled by `amp·√(2/N_basis)`, of shape `(Ns, N_basis)`. -/
theorem sample_basis_draws {Key : Type} (R : Rand Key) (key : Key)
    (Ns Nb D : ℕ) (amp ls : ℝ) (hls : ls ≠ 0)
    (hu : ∀ s b, 0 ≤ R.uniform01 (R.split key 3 1) Ns Nb s b ∧
      R.uniform01 (R.split key 3 1) Ns Nb s b < 1) :
    (∀ s b d, (sample_basis R key Ns Nb D amp ls).1 s b d * ls
        = R.normal3 (R.split key 3 0) Ns Nb D s b d) ∧
    (∀ s b, 0 ≤ (sample_basis R key Ns Nb D amp ls).2.1 s b ∧
        (sample_basis R key Ns Nb D amp ls).2.1 s b < 2 * Real.pi) ∧
    (∀ s b, (sample_basis R key Ns Nb D amp ls).2.2 s b
        = amp * Real.sqrt (2 / (Nb : ℝ)) * R.normal2 (R.split key 3 2) Ns Nb s b) := by
  refine ⟨fun s b d => ?_, fun s b => ⟨?_, ?_⟩, fun s b => rfl⟩
  · simp only [sample_basis, sample_thetas]
    exact div_mul_cancel₀ _ hls
  · simp only [sample_basis, sample_betas]
    exact mul_nonneg (by positivity) (hu s b).1
  · simp only [sample_basis, sample_betas]
    calc 2 * Real.pi * R.uniform01 (R.split key 3 1) Ns Nb s b
        < 2 * Real.pi * 1 := by
          exact mul_lt_mul_of_pos_left (hu s b).2 (by positivity)
      _ = 2 * Real.pi := mul_one _

/-- Witness for `sample_basis_draws` over the concrete all-zero random source. -/
theorem sample_basis_draws_witness :
    (∀ s b d, (sample_basis cRand () 1 1 1 1 1).1 s b d * 1
        = cRand.normal3 (cRand.split () 3 0) 1 1 1 s b d) ∧
    (∀ s b, 0 ≤ (sample_basis cRand () 1 1 1 1 1).2.1 s b ∧
        (sample_basis cRand () 1 1 1 1 1).2.1 s b < 2 * Real.pi) ∧
    (∀ s b, (sample_basis cRand () 1 1 1 1 1).2.2 s b
        = 1 * Real.sqrt (2 / ((1 : ℕ) : ℝ)) * cRand.normal2 (cRand.split () 3 2) 1 1 s b) :=
  sample_basis_draws cRand () 1 1 1 1 1 (by norm_num)
    (fun s b => by exact ⟨le_refl 0, by norm_num [cRand]⟩)

/-! ### Theorems: the per-channel sample accumulation (C5) -/

theorem chanLoop_closed {Key A Y : Type} [AddCommMonoid A] [SMul ℝ A]
    (m : MOModel Key A Y) (a : SampleArgs m) (keys0 : Fin 3 → Key)
    (i : Fin m.O) (t : Fin (a.Nt i) → ℝ) :
    ∀ (c : ℕ) (hc : c ≤ m.C i) (s : ℕ),
      chanLoop m a keys0 i t c hc (ksIter m.R keys0 s) =
        (∑ jc : Fin c, gTerm m a keys0 i (Fin.castLE hc jc) t
            (ksIter m.R keys0 (s + (jc : ℕ) + 1)),
         ksIter m.R keys0 (s + c)) := by
  intro c
  induction c with
  | zero =>
    intro hc s
    simp [chanLoop]
  | succ c ih =>
    intro hc s
    simp only [chanLoop, ih (Nat.le_of_succ_le hc) s]
    refine Prod.ext ?_ rfl
    rw [Fin.sum_univ_castSucc]
    rfl

theorem chansLoop_closed {Key A Y : Type} [AddCommMonoid A] [SMul ℝ A]
    (m : MOModel Key A Y) (a : SampleArgs m) (keys : Fin 3 → Key) :
    ∀ (k : ℕ) (hk : k ≤ m.O),
      (chansLoop m a keys k hk).2 = ksIter m.R keys (splitsBefore m a k hk) ∧
      ∀ (i : Fin m.O), (i : ℕ) < k →
        (chansLoop m a keys k hk).1 i =
          Option.map
            (fun t => ∑ j : Fin (m.C i), gTerm m a keys i j t
              (ksIter m.R keys
                (splitsBefore m a (i : ℕ) (le_of_lt i.isLt) + (j : ℕ) + 1)))
            (a.ts i) := by
  intro k
  induction k with
  | zero =>
    intro hk
    exact ⟨rfl, fun i hi => absurd hi (Nat.not_lt_zero _)⟩
  | succ k ih =>
    intro hk
    have hk' := Nat.le_of_succ_le hk
    obtain ⟨ihkey, ihfun⟩ := ih hk'
    cases hts : a.ts ⟨k, hk⟩ with
    | none =>
      constructor
      · simp only [chansLoop, hts, ihkey, splitsBefore, Nat.add_zero]
      · intro i hi
        by_cases hik : i = ⟨k, hk⟩
        · subst hik
          simp only [chansLoop, hts, if_pos rfl, if_true, Option.map_none']
        · have hik2 : (i : ℕ) < k := by
            rcases Nat.lt_succ_iff_lt_or_eq.mp hi with h | h
            · exact h
            · exact absurd (Fin.ext h) hik
          simp only [chansLoop, hts, if_neg hik]
          exact ihfun i hik2
    | some t =>
      have hkey2 : (chanLoop m a keys ⟨k, hk⟩ t (m.C ⟨k, hk⟩) le_rfl
          (chansLoop m a keys k hk').2)
          = (∑ jc : Fin (m.C ⟨k, hk⟩),
              gTerm m a keys ⟨k, hk⟩ (Fin.castLE le_rfl jc) t
                (ksIter m.R keys (splitsBefore m a k hk' + (jc : ℕ) + 1)),
             ksIter m.R keys (splitsBefore m a k hk' + m.C ⟨k, hk⟩)) := by
        rw [ihkey]
        exact chanLoop_closed m a keys ⟨k, hk⟩ t (m.C ⟨k, hk⟩) le_rfl
          (splitsBefore m a k hk')
      constructor
      · simp only [chansLoop, hts, hkey2, splitsBefore]
      · intro i hi
        by_cases hik : i = ⟨k, hk⟩
        · subst hik
          simp only [chansLoop, hts, if_pos rfl, if_true, hkey2, Option.map_some']
          rfl
        · have hik2 : (i : ℕ) < k := by
            rcases Nat.lt_succ_iff_lt_or_eq.mp hi with h | h
            · exact h
            · exact absurd (Fin.ext h) hik
          simp only [chansLoop, hts, if_neg hik]
          exact ihfun i hik2

/-- C5: per output channel `i` of `MOVarNVKM._sample`: a channel whose query
times are `None` yields `None`; a channel with query times `t` yields the sum
over filter orders `j = 0..C[i]−1` of `ampgs[i][j]^(j+1)` times the
integral-engine evaluation combining the order-`j` filter draws with the shared
input-process draws (`gTerm`), the key triple for order `j` of channel `i`
being the `splitsBefore i + j + 1`-st iterate of `jrnd.split(keys[-1], 3)`. -/
theorem moSample_channels {Key A Y : Type} [AddCommMonoid A] [SMul ℝ A]
    (m : MOModel Key A Y) (a : SampleArgs m) (keys : Fin 3 → Key) (i : Fin m.O) :
    (a.ts i = none → moSample m a keys i = none) ∧
    (∀ t : Fin (a.Nt i) → ℝ, a.ts i = some t →
      moSample m a keys i =
        some (∑ j : Fin (m.C i), a.ampgs i j ^ ((j : ℕ) + 1) •
          gEngine m a keys i j t
            (ksIter m.R keys
              (splitsBefore m a (i : ℕ) (le_of_lt i.isLt) + (j : ℕ) + 1)))) := by
  have h := (chansLoop_closed m a keys m.O le_rfl).2 i i.isLt
  constructor
  · intro hnone
    show (chansLoop m a keys m.O le_rfl).1 i = none
    rw [h, hnone]
    rfl
  · intro t ht
    show (chansLoop m a keys m.O le_rfl).1 i = _
    rw [h, ht]
    rfl

/-- Witness for `moSample_channels`: the concrete one-channel model, whose only
channel has a query-time array, yields the one-term accumulated sum. -/
theorem moSample_channels_witness :
    moSample cModel cSampleArgs (fun _ => ()) ⟨0, Nat.one_pos⟩ =
      some (∑ j : Fin (cModel.C ⟨0, Nat.one_pos⟩),
        cSampleArgs.ampgs ⟨0, Nat.one_pos⟩ j ^ ((j : ℕ) + 1) •
          gEngine cModel cSampleArgs (fun _ => ()) ⟨0, Nat.one_pos⟩ j (fun _ => 0)
            (ksIter cModel.R (fun _ => ())
              (splitsBefore cModel cSampleArgs
                ((⟨0, Nat.one_pos⟩ : Fin cModel.O) : ℕ)
                (le_of_lt (⟨0, Nat.one_pos⟩ : Fin cModel.O).isLt) + (j : ℕ) + 1))) :=
  (moSample_channels cModel cSampleArgs (fun _ => ()) ⟨0, Nat.one_pos⟩).2
    (fun _ => 0) rfl

/-! ### Theorems: the negative-ELBO bound (C2) -/

theorem varKL_one_zero :
    varKL (1 : Matrix (Fin 1) (Fin 1) ℝ) (fun _ => 0) 1 = 0 := by
  simp [varKL, choSolveVec, choSolveMat, dotProduct, Fin.sum_univ_one,
    Matrix.trace_fin_one, Matrix.one_mulVec]

theorem specKL_one_zero :
    specKL (1 : Matrix (Fin 1) (Fin 1) ℝ) (fun _ => 0) 1 = 0 := by
  simp [specKL, dotProduct, Fin.sum_univ_one, Matrix.trace_fin_one,
    Matrix.one_mulVec]

/-- C2 (amended): `_compute_bound` returns
`Σ_GPs specKLHalf − Σ_channels likelihood(y_i, samples_i, noise_i)` — the
claimed shape, but with each GP's contribution being `specKLHalf` (the KL
closed form with *halved* log-determinant terms, i.e. `−_KL`), not the KL
divergence itself. Hypotheses: every variational factor and every prior
Cholesky factor is lower-triangular with positive diagonal. -/
theorem computeBound_formula {Key A Y : Type} [AddCommMonoid A] [SMul ℝ A]
    (m : MOModel Key A Y) (a : SampleArgs m) (ys : Fin m.O → Y)
    (noise : Fin m.O → ℝ) (key : Key)
    (h1 : LowTri a.q.LC_us) (h2 : ∀ i, 0 < a.q.LC_us i i)
    (h3 : LowTri (m.covU 1 a.lsu)) (h4 : ∀ i, 0 < m.covU 1 a.lsu i i)
    (h5 : ∀ i j, LowTri (a.q.LC_gs i j))
    (h6 : ∀ i j k2, 0 < a.q.LC_gs i j k2 k2)
    (h7 : ∀ i j, LowTri (m.covG i j 1 (a.lsgs i j)))
    (h8 : ∀ i j k2, 0 < m.covG i j 1 (a.lsgs i j) k2 k2) :
    moComputeBound m a ys noise key =
      ((∑ i, ∑ j, specKLHalf (a.q.LC_gs i j) (a.q.mu_gs i j)
          (m.covG i j 1 (a.lsgs i j)))
        + specKLHalf a.q.LC_us a.q.mu_u (m.covU 1 a.lsu))
      - ∑ i, m.likelihood (ys i)
          (moSample m a (fun r => m.R.split key 3 (r : ℕ)) i) (noise i) := by
  have hg : ∀ i j, varKL (a.q.LC_gs i j) (a.q.mu_gs i j) (m.covG i j 1 (a.lsgs i j))
      = -specKLHalf (a.q.LC_gs i j) (a.q.mu_gs i j) (m.covG i j 1 (a.lsgs i j)) :=
    fun i j => varKL_eq_neg_specKLHalf _ _ _ (h5 i j) (h7 i j) (h6 i j) (h8 i j)
  have hu : varKL a.q.LC_us a.q.mu_u (m.covU 1 a.lsu)
      = -specKLHalf a.q.LC_us a.q.mu_u (m.covU 1 a.lsu) :=
    varKL_eq_neg_specKLHalf _ _ _ h1 h3 h2 h4
  simp only [moComputeBound, moKL, hg, hu, Finset.sum_neg_distrib]
  ring

/-- C2, counterexample: in the concrete one-channel model (zero likelihood,
`LC_gs = [[e]]`, all prior factors `[[1]]`), the value of `_compute_bound` is
`e²/2 − 1`, strictly greater than `ΣKL − Σlikelihood = e²/2 − 3/2` computed
with the true KL divergences (`specKL`): the bound is not the claimed
expression. -/
theorem computeBound_not_spec_KL :
    ((∑ i, ∑ j, specKL (cQPars.LC_gs i j) (cQPars.mu_gs i j)
        (cModel.covG i j 1 (cSampleArgs.lsgs i j)))
      + specKL cQPars.LC_us cQPars.mu_u (cModel.covU 1 cSampleArgs.lsu))
      - (∑ i, cModel.likelihood 0
          (moSample cModel cSampleArgs (fun r => cModel.R.split () 3 (r : ℕ)) i) 0)
    < moComputeBound cModel cSampleArgs (fun _ => 0) (fun _ => 0) () := by
  have hb : moComputeBound cModel cSampleArgs (fun _ => 0) (fun _ => 0) ()
      = Real.exp 2 / 2 - 1 := by
    simp only [moComputeBound, moKL, cModel, cQPars, cSampleArgs,
      varKL_cex_b, varKL_one_zero, Fin.sum_univ_one, Finset.sum_const_zero]
    ring
  have hs : ((∑ i, ∑ j, specKL (cQPars.LC_gs i j) (cQPars.mu_gs i j)
        (cModel.covG i j 1 (cSampleArgs.lsgs i j)))
      + specKL cQPars.LC_us cQPars.mu_u (cModel.covU 1 cSampleArgs.lsu))
      - (∑ i, cModel.likelihood 0
          (moSample cModel cSampleArgs (fun r => cModel.R.split () 3 (r : ℕ)) i) 0)
      = Real.exp 2 / 2 - 3 / 2 := by
    simp only [cModel, cQPars, cSampleArgs, specKL_cex_b, specKL_one_zero,
      Fin.sum_univ_one, Finset.sum_const_zero]
    ring
  rw [hb, hs]
  linarith

/-- Witness for `computeBound_formula`: the concrete one-channel model with all
factors `[[1]]`. -/
theorem computeBound_formula_witness :
    moComputeBound cModel wSampleArgs (fun _ => 0) (fun _ => 0) () =
      ((∑ i, ∑ j, specKLHalf (wSampleArgs.q.LC_gs i j) (wSampleArgs.q.mu_gs i j)
          (cModel.covG i j 1 (wSampleArgs.lsgs i j)))
        + specKLHalf wSampleArgs.q.LC_us wSampleArgs.q.mu_u
            (cModel.covU 1 wSampleArgs.lsu))
      - ∑ i, cModel.likelihood 0
          (moSample cModel wSampleArgs (fun r => cModel.R.split () 3 (r : ℕ)) i) 0 :=
  computeBound_formula cModel wSampleArgs (fun _ => 0) (fun _ => 0) ()
    lowTri_one (fun i => posDiag_one i) lowTri_one (fun i => posDiag_one i)
    (fun _ _ => lowTri_one) (fun _ _ k2 => posDiag_one k2)
    (fun _ _ => lowTri_one) (fun _ _ k2 => posDiag_one k2)

end NVKM
